import Mathlib

/-!
Shallow embedding of `launcher.py` from the RoboDanny repository.

The launcher exposes three CLI commands plus one helper coroutine:

* `initdb` (lines 75-103): creates a connection pool, loads the requested
  extensions, then for every registered table runs `table.create`, reporting
  per-table failures and continuing with the remaining tables.
* `remove_database` (lines 105-113): connects to PostgreSQL (a connection
  failure is swallowed by a bare `except: pass`), and otherwise executes
  `DROP TABLE <name>` (which raises if the table does not exist).
* `dropdb` (lines 115-151): computes the two migration-store paths, asks for
  interactive confirmation (aborting without it), runs `remove_database`
  (reporting a raised error and returning), then best-effort unlinks the two
  migration files and reports success.
* `convertjson` (lines 153-218): resolves the requested cog names against the
  `migrate_`-prefixed attributes of the `data_migrators` module ("all" expands
  via `dir()`, which returns the attribute names sorted), creates a connection
  pool, starts the Discord client (warming its cache), invokes `initdb` for the
  owning cogs, and finally runs the migrators in sequence, halting on the first
  failure.

Effectful operations are modelled as explicit event traces; the external world
(whether the pool can be created, whether a migrator raises, which files exist,
whether `DROP TABLE` succeeds) is modelled as an environment record.  Strings
passed to `click.echo` are modelled by their static text, with the appended
Python traceback abstracted away.
-/

namespace Launcher

/-- Observable side effects of the `convertjson` command (source lines 153-218):
`echo` is a `click.echo` call (with its error flag), `createPool` the successful
creation of the PostgreSQL pool (line 194), `clientStart` the establishment of
the Discord session via `client.start` (line 206), `invokeInitdb` the
`ctx.invoke(initdb, extension=...)` call (line 209), and `runUnit` the
invocation of one migrator coroutine (line 213). -/
inductive Event where
  | echo (msg : String) (isErr : Bool)
  | createPool
  | clientStart
  | invokeInitdb (extensions : List String)
  | runUnit (attr : String)
  deriving DecidableEq, Repr

/-- Environment for `convertjson`: `attrs` is the list of attribute names of the
`data_migrators` module in declaration order, `poolOk` whether
`asyncpg.create_pool` succeeds, and `unitFails` whether a given migrator
coroutine raises when awaited. -/
structure MigEnv where
  attrs : List String
  poolOk : Bool
  unitFails : String → Bool

/-- The characters of the literal string `migrate_`. -/
def migratePat : List Char := "migrate_".toList

/-- Python's `str.startswith("migrate_")`. -/
def startsWithMigrate (a : String) : Bool :=
  decide (a.toList.take 8 = migratePat)

/-- Python's `str.replace("migrate_", "")` on the character list: removes every
non-overlapping occurrence of the pattern, scanning left to right. -/
def replaceMigrate : List Char → List Char
  | 'm' :: 'i' :: 'g' :: 'r' :: 'a' :: 't' :: 'e' :: '_' :: rest => replaceMigrate rest
  | c :: cs => c :: replaceMigrate cs
  | [] => []

/-- `attr.replace('migrate_', '')` from source line 177. -/
def stripMigrate (a : String) : String :=
  String.mk (replaceMigrate a.toList)

/-- Lexicographic comparison of character lists by Unicode code point, the
order Python uses to compare `str` values (and hence the order of `dir()`). -/
def charListLe : List Char → List Char → Bool
  | [], _ => true
  | _ :: _, [] => false
  | a :: as, b :: bs =>
    if a.toNat < b.toNat then true
    else if b.toNat < a.toNat then false
    else charListLe as bs

/-- Python's `<=` on strings. -/
def strLe (a b : String) : Bool :=
  charListLe a.toList b.toList

/-- Ordered insertion with respect to `strLe`. -/
def insortStr (x : String) : List String → List String
  | [] => [x]
  | y :: ys => if strLe x y then x :: y :: ys else y :: insortStr x ys

/-- Python's `dir(module)`: the attribute names sorted lexicographically by
code point (CPython sorts the result of `dir()`). -/
def pyDir (attrs : List String) : List String :=
  attrs.foldr insortStr []

/-- The validation loop of `convertjson` (source lines 180-188): look up
`migrate_<cog>` for each requested cog in order, stopping with an error on the
first name that is not an attribute of `data_migrators`. -/
def resolveGo (attrs : List String) : List String → Except String (List (String × String))
  | [] => .ok []
  | cog :: rest =>
    if ("migrate_" ++ cog) ∈ attrs then
      match resolveGo attrs rest with
      | .ok l => .ok (("migrate_" ++ cog, cog) :: l)
      | .error e => .error e
    else .error cog

/-- Resolution of the requested cog names to `(attribute, cog)` pairs
(source lines 176-188): if any requested name equals `"all"`, every
`migrate_`-prefixed attribute of `data_migrators` is taken, in `dir()` order;
otherwise each name is looked up individually. -/
def resolve (attrs cogs : List String) : Except String (List (String × String)) :=
  if cogs.any (· == "all") then
    .ok (((pyDir attrs).filter (fun a => startsWithMigrate a)).map
      (fun a => (a, stripMigrate a)))
  else resolveGo attrs cogs

/-- The migrator loop of `convertjson` (source lines 211-218), with the
database modelled as the list of names of migrators whose writes have been
committed: each migrator that completes appends its name; a raising migrator is
reported and terminates the loop, leaving earlier writes in place. -/
def runUnits (fails : String → Bool) (db : List String) :
    List (String × String) → List Event × List String
  | [] => ([], db)
  | (attr, _) :: rest =>
    if fails attr then
      ([Event.runUnit attr,
        Event.echo ("migrator " ++ attr ++ " has failed, terminating") true], db)
    else
      let r := runUnits fails (db ++ [attr]) rest
      (Event.runUnit attr ::
        Event.echo ("migrator " ++ attr ++ " completed successfully") false :: r.1, r.2)

/-- The whole `convertjson` command (source lines 156-218): returns the trace of
events together with the final database contents. -/
def convertjson (env : MigEnv) (cogs : List String) (db : List String) :
    List Event × List String :=
  match resolve env.attrs cogs with
  | .error badCog =>
    ([Event.echo ("invalid cog name given, " ++ badCog ++ ".") true], db)
  | .ok toRun =>
    if env.poolOk then
      let r := runUnits env.unitFails db toRun
      (Event.createPool :: Event.clientStart ::
        Event.invokeInitdb (toRun.map (fun p => "cogs." ++ p.2)) :: r.1, r.2)
    else
      ([Event.echo "Could not create PostgreSQL connection pool." true], db)

/-- Observable side effects of the `initdb` command (source lines 75-103):
`echoOut` is a `click.echo` call and `createTable` the invocation of
`table.create(verbose=...)` for one registered table (line 99). -/
inductive DbEvent where
  | echoOut (msg : String) (isErr : Bool)
  | createTable (name : String)
  deriving DecidableEq, Repr

/-- One registered table (an element of `db.Table.all_tables()`): its
`__tablename__` and its `__module__`. -/
structure TableInfo where
  tablename : String
  modname : String
  deriving DecidableEq, Repr

/-- The per-table loop of `initdb` (source lines 97-103): attempt
`table.create` for every registered table in order; a raising create is
reported (with the table name) and the loop continues with the next table,
while a successful create is reported with the completion message. -/
def processTables (createFails : String → Bool) : List TableInfo → List DbEvent
  | [] => []
  | t :: rest =>
    (if createFails t.tablename then
      [DbEvent.createTable t.tablename,
       DbEvent.echoOut ("Could not create " ++ t.tablename ++ ".") true]
    else
      [DbEvent.createTable t.tablename,
       DbEvent.echoOut ("[" ++ t.modname ++ "] Processing creation or migration for "
         ++ t.tablename ++ " complete.") false])
    ++ processTables createFails rest

/-- Index of the last occurrence of `.` in a character list, if any. -/
def lastDotIdx : List Char → Option Nat
  | [] => none
  | c :: cs =>
    match lastDotIdx cs with
    | some i => some (i + 1)
    | none => if c = '.' then some 0 else none

/-- Python's `pathlib.PurePath.with_suffix` applied to a single path component:
the name has a suffix exactly when its last dot sits strictly inside the name
(`0 < i < len - 1` in CPython); an existing suffix is replaced by the new one,
otherwise the new suffix is appended. -/
def pyWithSuffix (name suffix : String) : String :=
  let l := name.toList
  match lastDotIdx l with
  | some i => if 0 < i ∧ i < l.length - 1 then String.mk (l.take i) ++ suffix else name ++ suffix
  | none => name ++ suffix

/-- The migration-history path computed by `dropdb` (source line 127):
`Path('migrations').joinpath(name).with_suffix('.json')` for a table name that
is a single path component. -/
def migrationFile (name : String) : String :=
  "migrations/" ++ pyWithSuffix name ".json"

/-- The current-pointer path computed by `dropdb` (source line 128):
`migration.with_name('current-' + migration.name)`. -/
def currentFile (name : String) : String :=
  "migrations/current-" ++ pyWithSuffix name ".json"

/-- Observable side effects of the `dropdb` command (source lines 115-151):
`confirmPrompt` is the interactive `click.confirm` call, `dropTable` a
successfully executed `DROP TABLE` statement, `unlinkFile` a successful
deletion of a migration-store file, and `echoMsg` a `click.echo` call. -/
inductive DropEvent where
  | confirmPrompt
  | dropTable (name : String)
  | unlinkFile (path : String)
  | echoMsg (msg : String) (isErr : Bool)
  deriving DecidableEq, Repr

/-- Environment for `dropdb`: `connectOk` is whether `asyncpg.connect`
succeeds, `dropOk` whether the `DROP TABLE` statement executes without raising
(it raises, e.g. with `UndefinedTableError`, when the table does not exist),
and `files` the list of paths that currently exist on disk. -/
structure DropEnv where
  connectOk : Bool
  dropOk : Bool
  files : List String

/-- The `remove_database` coroutine (source lines 105-113): a failure of
`asyncpg.connect` is swallowed by the bare `except: pass` and nothing happens;
on a successful connection the `DROP TABLE` is executed and any error it raises
propagates to the caller.  Returns the events together with whether the
coroutine raised. -/
def remove_database (env : DropEnv) (name : String) : List DropEvent × Bool :=
  if env.connectOk then
    if env.dropOk then ([DropEvent.dropTable name], false)
    else ([], true)
  else ([], false)

/-- `Path.unlink` wrapped in `try/except` (source lines 141-149): delete the
file if it exists, otherwise the raised error is caught and the warning is
echoed.  Returns the events and the resulting file list. -/
def tryUnlink (files : List String) (p : String) (warnMsg : String) :
    List DropEvent × List String :=
  if p ∈ files then ([DropEvent.unlinkFile p], files.filter (fun f => f ≠ p))
  else ([DropEvent.echoMsg warnMsg false], files)

/-- The `dropdb` command (source lines 118-151), with the interactive
confirmation modelled by the `confirmed` flag: `click.confirm(..., abort=True)`
raises `Abort` when the user declines, so nothing after line 130 runs.  On
confirmation, `remove_database` runs; if it raised, the error is reported and
the command returns with the files untouched; otherwise a warning is printed
when either migration file is missing, both files are best-effort unlinked, and
success is reported. -/
def dropdb (env : DropEnv) (name : String) (confirmed : Bool) :
    List DropEvent × List String :=
  let migration := migrationFile name
  let current := currentFile name
  if confirmed then
    let r1 := remove_database env name
    if r1.2 then
      ([DropEvent.confirmPrompt] ++ r1.1 ++
        [DropEvent.echoMsg "could not delete the database" true], env.files)
    else
      let warn :=
        if migration ∈ env.files ∧ current ∈ env.files then ([] : List DropEvent)
        else [DropEvent.echoMsg "warning: could not find the appropriate files." false]
      let r2 := tryUnlink env.files migration "warning: could not delete migration file"
      let r3 := tryUnlink r2.2 current "warning: could not delete current migration file"
      ([DropEvent.confirmPrompt] ++ r1.1 ++ warn ++ r2.1 ++ r3.1 ++
        [DropEvent.echoMsg ("successfully removed " ++ name ++ " database") false], r3.2)
  else ([DropEvent.confirmPrompt], env.files)

/-- The proposition underlying the boolean string order `strLe`; `dir()`
returns attribute names sorted with respect to this order. -/
def SLe (a b : String) : Prop :=
  strLe a b = true

/-- Concrete environment: one registered migrator, a healthy pool, no unit
failures. -/
def c1Env : MigEnv :=
  ⟨["migrate_profiles"], true, fun _ => false⟩

/-- Concrete environment: three registered migrators of which `migrate_b`
raises. -/
def c2Env : MigEnv :=
  ⟨["migrate_a", "migrate_b", "migrate_c"], true, fun a => a == "migrate_b"⟩

/-- Concrete environment: one registered migrator, a healthy pool, no unit
failures. -/
def c3Env : MigEnv :=
  ⟨["migrate_profiles"], true, fun _ => false⟩

/-- Attribute names of `data_migrators` in declaration order, deliberately not
alphabetical. -/
def c7Attrs : List String :=
  ["migrate_tags", "migrate_profiles"]

/-- Concrete drop environment: connection succeeds, `DROP TABLE` raises, both
migration files exist. -/
def c6Env : DropEnv :=
  ⟨true, false, [migrationFile "foo", currentFile "foo"]⟩

/-- Concrete drop environment: connection succeeds, `DROP TABLE` raises. -/
def c9Env : DropEnv :=
  ⟨true, false, ["migrations/tags.json", "migrations/current-tags.json"]⟩

/-- Concrete drop environment: the connection to PostgreSQL fails. -/
def c10Env : DropEnv :=
  ⟨false, true, ["migrations/tags.json", "migrations/current-tags.json", "rdanny.log"]⟩

end Launcher

namespace Launcher

theorem resolveGo_ok_mem {attrs : List String} :
    ∀ {cogs : List String} {l : List (String × String)},
      resolveGo attrs cogs = .ok l → ∀ c ∈ cogs, ("migrate_" ++ c) ∈ attrs := by
  intro cogs
  induction cogs with
  | nil => intro l _ c hc; simp at hc
  | cons cog rest ih =>
    intro l h c hc
    by_cases hm : ("migrate_" ++ cog) ∈ attrs
    · rcases List.mem_cons.mp hc with rfl | hc2
      · exact hm
      · simp only [resolveGo, if_pos hm] at h
        cases hr : resolveGo attrs rest with
        | ok l2 => exact ih hr c hc2
        | error e => rw [hr] at h; exact absurd h (by simp)
    · simp only [resolveGo, if_neg hm] at h
      exact absurd h (by simp)

theorem resolveGo_error_mem {attrs : List String} :
    ∀ {cogs : List String} {b : String},
      resolveGo attrs cogs = .error b → ("migrate_" ++ b) ∉ attrs ∧ b ∈ cogs := by
  intro cogs
  induction cogs with
  | nil => intro b h; exact absurd h (by simp [resolveGo])
  | cons cog rest ih =>
    intro b h
    by_cases hm : ("migrate_" ++ cog) ∈ attrs
    · simp only [resolveGo, if_pos hm] at h
      cases hr : resolveGo attrs rest with
      | ok l2 => rw [hr] at h; exact absurd h (by simp)
      | error e =>
        rw [hr] at h
        obtain rfl : e = b := by simpa using h
        obtain ⟨h1, h2⟩ := ih hr
        exact ⟨h1, List.mem_cons_of_mem _ h2⟩
    · simp only [resolveGo, if_neg hm] at h
      obtain rfl : cog = b := by simpa using h
      exact ⟨hm, List.mem_cons_self _ _⟩

/-- C1 (amended): for every requested list of cog names that does not contain
the sentinel `all`, if the list contains a name with no matching
`migrate_<name>` attribute in `data_migrators`, then `convertjson` fails
validation and returns before any side effect: its only event is the
`invalid cog name given` error message, so no connection pool is created, no
Discord session is opened, no unit runs, and the database is untouched. -/
theorem convertjson_unknown_cog_aborts (env : MigEnv) (cogs : List String)
    (db : List String) (c : String)
    (hall : cogs.any (· == "all") = false)
    (hc : c ∈ cogs) (hreg : ("migrate_" ++ c) ∉ env.attrs) :
    (∃ bad, ("migrate_" ++ bad) ∉ env.attrs ∧ bad ∈ cogs ∧
      (convertjson env cogs db).1 =
        [Event.echo ("invalid cog name given, " ++ bad ++ ".") true]) ∧
    Event.createPool ∉ (convertjson env cogs db).1 ∧
    Event.clientStart ∉ (convertjson env cogs db).1 ∧
    (∀ a, Event.runUnit a ∉ (convertjson env cogs db).1) ∧
    (convertjson env cogs db).2 = db := by
  have hres : resolve env.attrs cogs = resolveGo env.attrs cogs := by
    simp [resolve, hall]
  cases h : resolveGo env.attrs cogs with
  | ok l => exact absurd (resolveGo_ok_mem h c hc) hreg
  | error b =>
    obtain ⟨hb1, hb2⟩ := resolveGo_error_mem h
    have hev : convertjson env cogs db =
        ([Event.echo ("invalid cog name given, " ++ b ++ ".") true], db) := by
      simp [convertjson, hres, h]
    refine ⟨⟨b, hb1, hb2, by rw [hev]⟩, ?_, ?_, ?_, ?_⟩ <;> simp [hev]

/-- C1 counterexample: when the requested list contains the sentinel `all`
together with the unregistered name `bogus`, validation does not fail: the
pool is created, the Discord session is opened and the registered unit runs,
even though `migrate_bogus` is not an attribute of `data_migrators`. -/
theorem convertjson_all_bypasses_validation :
    ("migrate_" ++ "bogus") ∉ c1Env.attrs ∧
    ("bogus" : String) ∈ (["all", "bogus"] : List String) ∧
    Event.createPool ∈ (convertjson c1Env ["all", "bogus"] []).1 ∧
    Event.clientStart ∈ (convertjson c1Env ["all", "bogus"] []).1 ∧
    Event.runUnit "migrate_profiles" ∈ (convertjson c1Env ["all", "bogus"] []).1 := by
  decide

theorem convertjson_unknown_cog_aborts_witness :
    ("migrate_" ++ "missing") ∉ c1Env.attrs ∧
    Event.createPool ∉ (convertjson c1Env ["profiles", "missing"] []).1 :=
  ⟨by decide,
   (convertjson_unknown_cog_aborts c1Env ["profiles", "missing"] [] "missing"
      (by decide) (by decide) (by decide)).2.1⟩

theorem runUnits_fail_eq (fails : String → Bool) (db : List String)
    (attr cn : String) (rest : List (String × String)) (h : fails attr = true) :
    runUnits fails db ((attr, cn) :: rest) =
      ([Event.runUnit attr,
        Event.echo ("migrator " ++ attr ++ " has failed, terminating") true], db) := by
  simp [runUnits, h]

theorem runUnits_ok_eq (fails : String → Bool) (db : List String)
    (p1 p2 : String) (rest : List (String × String)) (h : fails p1 = false) :
    runUnits fails db ((p1, p2) :: rest) =
      (Event.runUnit p1 ::
        Event.echo ("migrator " ++ p1 ++ " completed successfully") false ::
        (runUnits fails (db ++ [p1]) rest).1,
       (runUnits fails (db ++ [p1]) rest).2) := by
  simp [runUnits, h]

theorem runUnits_halt (fails : String → Bool) :
    ∀ (pre : List (String × String)) (db : List String) (attr cn : String)
      (post : List (String × String)),
      (∀ p ∈ pre, fails p.1 = false) → fails attr = true →
      Event.runUnit attr ∈ (runUnits fails db (pre ++ (attr, cn) :: post)).1 ∧
      Event.echo ("migrator " ++ attr ++ " has failed, terminating") true
        ∈ (runUnits fails db (pre ++ (attr, cn) :: post)).1 ∧
      (∀ q ∈ post, q.1 ≠ attr → q.1 ∉ pre.map Prod.fst →
        Event.runUnit q.1 ∉ (runUnits fails db (pre ++ (attr, cn) :: post)).1) ∧
      (runUnits fails db (pre ++ (attr, cn) :: post)).2 = db ++ pre.map Prod.fst := by
  intro pre
  induction pre with
  | nil =>
    intro db attr cn post _ hattr
    rw [List.nil_append, runUnits_fail_eq fails db attr cn post hattr]
    refine ⟨by simp, by simp, ?_, by simp⟩
    intro q _ hq1 _
    simp [hq1]
  | cons p pre ih =>
    intro db attr cn post hpre hattr
    obtain ⟨p1, p2⟩ := p
    have hp1 : fails p1 = false := hpre (p1, p2) (List.mem_cons_self _ _)
    have hpre2 : ∀ q ∈ pre, fails q.1 = false :=
      fun q hq => hpre q (List.mem_cons_of_mem _ hq)
    have key := ih (db ++ [p1]) attr cn post hpre2 hattr
    rw [List.cons_append, runUnits_ok_eq fails db p1 p2 _ hp1]
    refine ⟨?_, ?_, ?_, ?_⟩
    · exact List.mem_cons_of_mem _ (List.mem_cons_of_mem _ key.1)
    · exact List.mem_cons_of_mem _ (List.mem_cons_of_mem _ key.2.1)
    · intro q hq hq1 hq2
      have hq2a : q.1 ≠ p1 := by
        intro h; exact hq2 (by simp [h])
      have hq2b : q.1 ∉ pre.map Prod.fst := by
        intro h; exact hq2 (by simp [h])
      intro hmem
      rcases List.mem_cons.mp hmem with h | hmem2
      · exact hq2a (by simpa using h)
      · rcases List.mem_cons.mp hmem2 with h | hmem3
        · simp at h
        · exact key.2.2.1 q hq hq1 hq2b hmem3
    · rw [key.2.2.2]
      simp

/-- C2: if the resolved sequence of import units is `pre ++ (attr, _) :: post`
where every unit of `pre` completes and `attr` raises, then `convertjson`
reports `attr` with the failure message and returns immediately: no unit of
`post` is ever invoked, while the writes committed by the units of `pre` (and
the initial database contents) are all still present at the end. -/
theorem convertjson_halts_on_first_failure (env : MigEnv) (cogs : List String)
    (db : List String) (pre : List (String × String)) (attr cn : String)
    (post : List (String × String))
    (hres : resolve env.attrs cogs = .ok (pre ++ (attr, cn) :: post))
    (hpool : env.poolOk = true)
    (hpre : ∀ p ∈ pre, env.unitFails p.1 = false)
    (hattr : env.unitFails attr = true) :
    Event.runUnit attr ∈ (convertjson env cogs db).1 ∧
    Event.echo ("migrator " ++ attr ++ " has failed, terminating") true
      ∈ (convertjson env cogs db).1 ∧
    (∀ q ∈ post, q.1 ≠ attr → q.1 ∉ pre.map Prod.fst →
      Event.runUnit q.1 ∉ (convertjson env cogs db).1) ∧
    (convertjson env cogs db).2 = db ++ pre.map Prod.fst := by
  have key := runUnits_halt env.unitFails pre db attr cn post hpre hattr
  have hev : convertjson env cogs db =
      (Event.createPool :: Event.clientStart ::
        Event.invokeInitdb ((pre ++ (attr, cn) :: post).map (fun p => "cogs." ++ p.2)) ::
        (runUnits env.unitFails db (pre ++ (attr, cn) :: post)).1,
       (runUnits env.unitFails db (pre ++ (attr, cn) :: post)).2) := by
    simp [convertjson, hres, hpool]
  refine ⟨?_, ?_, ?_, ?_⟩
  · rw [hev]; simp only [List.mem_cons]
    exact Or.inr (Or.inr (Or.inr key.1))
  · rw [hev]; simp only [List.mem_cons]
    exact Or.inr (Or.inr (Or.inr key.2.1))
  · intro q hq hq1 hq2
    rw [hev]
    intro hmem
    rcases List.mem_cons.mp hmem with h | hmem2
    · simp at h
    · rcases List.mem_cons.mp hmem2 with h | hmem3
      · simp at h
      · rcases List.mem_cons.mp hmem3 with h | hmem4
        · simp at h
        · exact key.2.2.1 q hq hq1 hq2 hmem4
  · rw [hev]; exact key.2.2.2

theorem convertjson_halts_on_first_failure_witness :
    c2Env.unitFails "migrate_b" = true ∧
    Event.runUnit "migrate_c" ∉ (convertjson c2Env ["a", "b", "c"] []).1 ∧
    (convertjson c2Env ["a", "b", "c"] []).2 = ["migrate_a"] := by
  have h := convertjson_halts_on_first_failure c2Env ["a", "b", "c"] []
    [("migrate_a", "a")] "migrate_b" "b" [("migrate_c", "c")]
    rfl rfl (by decide) (by decide)
  exact ⟨by decide, h.2.2.1 ("migrate_c", "c") (by decide) (by decide) (by decide),
    h.2.2.2⟩

/-- C3 counterexample: on a successful run with one resolved unit, the Discord
session (`client.start`, warming the identity cache) is established at trace
position 1, while the schema-ensuring `ctx.invoke(initdb, ...)` only happens at
trace position 2 — the session with the external service is established
before, not after, the schema-ensuring step. -/
theorem convertjson_warms_cache_before_schema :
    ((convertjson c3Env ["profiles"] []).1.findIdx
        (fun e => match e with | Event.clientStart => true | _ => false) = 1) ∧
    ((convertjson c3Env ["profiles"] []).1.findIdx
        (fun e => match e with | Event.invokeInitdb _ => true | _ => false) = 2) ∧
    (convertjson c3Env ["profiles"] []).1.length = 5 := by
  decide

/-- C3 (amended): for every import run that passes validation and creates its
pool, the phases happen in the order: create the connection pool, then warm the
external real-time service's identity cache (connect and block until ready),
then ensure schema by invoking `initdb` for the modules owning the requested
units, then execute the import units; in particular the session with the
external service is established before the schema-ensuring step, not after. -/
theorem convertjson_phase_order (env : MigEnv) (cogs : List String)
    (db : List String) (l : List (String × String))
    (hres : resolve env.attrs cogs = .ok l) (hpool : env.poolOk = true) :
    (convertjson env cogs db).1 =
      Event.createPool :: Event.clientStart ::
        Event.invokeInitdb (l.map (fun p => "cogs." ++ p.2)) ::
        (runUnits env.unitFails db l).1 := by
  simp [convertjson, hres, hpool]

theorem convertjson_phase_order_witness :
    resolve c3Env.attrs ["profiles"] = .ok [("migrate_profiles", "profiles")] ∧
    (convertjson c3Env ["profiles"] []).1 =
      Event.createPool :: Event.clientStart :: Event.invokeInitdb ["cogs.profiles"] ::
        (runUnits c3Env.unitFails [] [("migrate_profiles", "profiles")]).1 :=
  ⟨rfl, convertjson_phase_order c3Env ["profiles"] [] [("migrate_profiles", "profiles")]
    rfl rfl⟩

theorem processTables_mem_create (fails : String → Bool) :
    ∀ (tables : List TableInfo) (t : TableInfo), t ∈ tables →
      DbEvent.createTable t.tablename ∈ processTables fails tables := by
  intro tables
  induction tables with
  | nil => intro t ht; simp at ht
  | cons u rest ih =>
    intro t ht
    rcases List.mem_cons.mp ht with rfl | ht2
    · by_cases h : fails t.tablename <;> simp [processTables, h]
    · simp only [processTables, List.mem_append]
      exact Or.inr (ih t ht2)

theorem processTables_mem_fail (fails : String → Bool) :
    ∀ (tables : List TableInfo) (t : TableInfo), t ∈ tables →
      fails t.tablename = true →
      DbEvent.echoOut ("Could not create " ++ t.tablename ++ ".") true
        ∈ processTables fails tables := by
  intro tables
  induction tables with
  | nil => intro t ht; simp at ht
  | cons u rest ih =>
    intro t ht hf
    rcases List.mem_cons.mp ht with rfl | ht2
    · simp [processTables, hf]
    · simp only [processTables, List.mem_append]
      exact Or.inr (ih t ht2 hf)

theorem processTables_mem_ok (fails : String → Bool) :
    ∀ (tables : List TableInfo) (t : TableInfo), t ∈ tables →
      fails t.tablename = false →
      DbEvent.echoOut ("[" ++ t.modname ++ "] Processing creation or migration for "
          ++ t.tablename ++ " complete.") false
        ∈ processTables fails tables := by
  intro tables
  induction tables with
  | nil => intro t ht; simp at ht
  | cons u rest ih =>
    intro t ht hf
    rcases List.mem_cons.mp ht with rfl | ht2
    · simp [processTables, hf]
    · simp only [processTables, List.mem_append]
      exact Or.inr (ih t ht2 hf)

/-- C4: in the schema-initialisation loop of `initdb`, a registered table whose
creation step fails has the failure reported together with its name, and every
table after it is still processed: each later table has its create step
attempted and, when that step succeeds, its completion is reported — one
table's DDL failure never aborts the processing of sibling tables. -/
theorem initdb_failure_skips_no_table (createFails : String → Bool)
    (pre : List TableInfo) (t : TableInfo) (post : List TableInfo)
    (hf : createFails t.tablename = true) :
    DbEvent.createTable t.tablename ∈ processTables createFails (pre ++ t :: post) ∧
    DbEvent.echoOut ("Could not create " ++ t.tablename ++ ".") true
      ∈ processTables createFails (pre ++ t :: post) ∧
    (∀ u ∈ post,
      DbEvent.createTable u.tablename ∈ processTables createFails (pre ++ t :: post) ∧
      (createFails u.tablename = false →
        DbEvent.echoOut ("[" ++ u.modname ++ "] Processing creation or migration for "
            ++ u.tablename ++ " complete.") false
          ∈ processTables createFails (pre ++ t :: post))) := by
  have hmt : t ∈ pre ++ t :: post := by simp
  refine ⟨processTables_mem_create createFails _ t hmt,
    processTables_mem_fail createFails _ t hmt hf, ?_⟩
  intro u hu
  have hmu : u ∈ pre ++ t :: post := by
    simp only [List.mem_append, List.mem_cons]
    exact Or.inr (Or.inr hu)
  exact ⟨processTables_mem_create createFails _ u hmu,
    fun ho => processTables_mem_ok createFails _ u hmu ho⟩

theorem initdb_failure_skips_no_table_witness :
    ((fun n => n == "tags") "tags" : Bool) = true ∧
    DbEvent.createTable "profiles" ∈
      processTables (fun n => n == "tags")
        [⟨"tags", "cogs.tags"⟩, ⟨"profiles", "cogs.profiles"⟩] :=
  ⟨by decide,
   ((initdb_failure_skips_no_table (fun n => n == "tags") [] ⟨"tags", "cogs.tags"⟩
      [⟨"profiles", "cogs.profiles"⟩] (by decide)).2.2
     ⟨"profiles", "cogs.profiles"⟩ (by decide)).1⟩

/-- C5: without confirmation `dropdb` aborts (the `click.confirm(...,
abort=True)` call raises `Abort`): its only event is the confirmation prompt,
so no `DROP TABLE` is executed, no migration-store file is deleted, and the
file system is left unchanged. -/
theorem dropdb_unconfirmed_is_noop (env : DropEnv) (name : String) :
    dropdb env name false = ([DropEvent.confirmPrompt], env.files) ∧
    DropEvent.dropTable name ∉ (dropdb env name false).1 ∧
    (∀ p, DropEvent.unlinkFile p ∉ (dropdb env name false).1) := by
  refine ⟨rfl, by simp [dropdb], ?_⟩
  intro p
  simp [dropdb]

/-- C6 counterexample: with a live connection and a `DROP TABLE` that raises
(the table does not exist), the confirmed drop reports the failure as an
error (`err=True`), not a warning, and the removal of the migration history
does not proceed: both store files are still present afterwards and the
success message is never printed. -/
theorem dropdb_missing_table_aborts_removal :
    (dropdb c6Env "foo" true).1 =
      [DropEvent.confirmPrompt, DropEvent.echoMsg "could not delete the database" true] ∧
    (dropdb c6Env "foo" true).2 = c6Env.files ∧
    migrationFile "foo" ∈ (dropdb c6Env "foo" true).2 ∧
    DropEvent.echoMsg "successfully removed foo database" false
      ∉ (dropdb c6Env "foo" true).1 := by
  decide

/-- C6 (amended): the live `DROP TABLE` of a confirmed drop is not best-effort:
if the statement raises (for example because the table does not exist, the
connection itself having succeeded), the failure is reported as an error — not
a warning — and the removal of the table's migration history does not proceed:
neither store file is unlinked, the success message is not printed, and the
file system is unchanged.  Only when the connection itself fails is the drop
silently skipped with the store removal still proceeding. -/
theorem dropdb_drop_error_keeps_store (env : DropEnv) (name : String)
    (hc : env.connectOk = true) (hd : env.dropOk = false) :
    (∃ m, DropEvent.echoMsg m true ∈ (dropdb env name true).1) ∧
    DropEvent.unlinkFile (migrationFile name) ∉ (dropdb env name true).1 ∧
    DropEvent.unlinkFile (currentFile name) ∉ (dropdb env name true).1 ∧
    DropEvent.echoMsg ("successfully removed " ++ name ++ " database") false
      ∉ (dropdb env name true).1 ∧
    (dropdb env name true).2 = env.files := by
  refine ⟨⟨"could not delete the database", ?_⟩, ?_, ?_, ?_, ?_⟩ <;>
    simp [dropdb, remove_database, hc, hd]

theorem dropdb_drop_error_keeps_store_witness :
    c6Env.connectOk = true ∧ c6Env.dropOk = false ∧
    (dropdb c6Env "foo" true).2 = c6Env.files :=
  ⟨rfl, rfl, (dropdb_drop_error_keeps_store c6Env "foo" rfl rfl).2.2.2.2⟩

/-- C9: if the `DROP TABLE` statement raises while the connection succeeded,
the confirmed drop reports the failure and returns before touching the
migration store: no file is unlinked and the file list is exactly as it was. -/
theorem dropdb_ddl_failure_preserves_store (env : DropEnv) (name : String)
    (hc : env.connectOk = true) (hd : env.dropOk = false) :
    DropEvent.echoMsg "could not delete the database" true ∈ (dropdb env name true).1 ∧
    (∀ p, DropEvent.unlinkFile p ∉ (dropdb env name true).1) ∧
    (dropdb env name true).2 = env.files := by
  refine ⟨?_, ?_, ?_⟩
  · simp [dropdb, remove_database, hc, hd]
  · intro p; simp [dropdb, remove_database, hc, hd]
  · simp [dropdb, remove_database, hc, hd]

theorem dropdb_ddl_failure_preserves_store_witness :
    c9Env.connectOk = true ∧ c9Env.dropOk = false ∧
    (dropdb c9Env "tags" true).2 = c9Env.files :=
  ⟨rfl, rfl, (dropdb_ddl_failure_preserves_store c9Env "tags" rfl rfl).2.2⟩

theorem tryUnlink_self_not_mem (files : List String) (p w : String) :
    p ∉ (tryUnlink files p w).2 := by
  by_cases h : p ∈ files <;> simp [tryUnlink, h]

theorem tryUnlink_sub (files : List String) (p w f : String)
    (hf : f ∈ (tryUnlink files p w).2) : f ∈ files := by
  by_cases h : p ∈ files <;> simp [tryUnlink, h] at hf
  · exact hf.1
  · exact hf

theorem tryUnlink_keep (files : List String) (p w f : String)
    (hf : f ∈ files) (hne : f ≠ p) : f ∈ (tryUnlink files p w).2 := by
  by_cases h : p ∈ files <;> simp [tryUnlink, h, hf, hne]

theorem dropdb_connect_fail_eq (env : DropEnv) (name : String)
    (hc : env.connectOk = false) :
    dropdb env name true =
      ((if migrationFile name ∈ env.files ∧ currentFile name ∈ env.files
          then ([DropEvent.confirmPrompt] : List DropEvent)
          else [DropEvent.confirmPrompt,
            DropEvent.echoMsg "warning: could not find the appropriate files." false]) ++
        (tryUnlink env.files (migrationFile name)
          "warning: could not delete migration file").1 ++
        (tryUnlink (tryUnlink env.files (migrationFile name)
            "warning: could not delete migration file").2 (currentFile name)
          "warning: could not delete current migration file").1 ++
        [DropEvent.echoMsg ("successfully removed " ++ name ++ " database") false],
       (tryUnlink (tryUnlink env.files (migrationFile name)
           "warning: could not delete migration file").2 (currentFile name)
         "warning: could not delete current migration file").2) := by
  by_cases h : migrationFile name ∈ env.files ∧ currentFile name ∈ env.files <;>
    simp [dropdb, remove_database, hc, h]

/-- C10: when the connection to PostgreSQL fails, the confirmed drop swallows
the connection error: no `DROP TABLE` is executed, yet the command still
proceeds to delete the table's migration-history and current-pointer files
(neither is present afterwards, while unrelated files survive) and reports
successful removal — the migration store is purged while the live table is
left in place. -/
theorem dropdb_connect_failure_still_purges (env : DropEnv) (name : String)
    (hc : env.connectOk = false) :
    DropEvent.dropTable name ∉ (dropdb env name true).1 ∧
    DropEvent.echoMsg ("successfully removed " ++ name ++ " database") false
      ∈ (dropdb env name true).1 ∧
    migrationFile name ∉ (dropdb env name true).2 ∧
    currentFile name ∉ (dropdb env name true).2 ∧
    (∀ f ∈ env.files, f ≠ migrationFile name → f ≠ currentFile name →
      f ∈ (dropdb env name true).2) := by
  rw [dropdb_connect_fail_eq env name hc]
  refine ⟨?_, ?_, ?_, ?_, ?_⟩
  · intro hmem
    simp only [List.mem_append] at hmem
    rcases hmem with ((h1 | h2) | h3) | h4
    · split at h1 <;> simp at h1
    · revert h2
      unfold tryUnlink
      split <;> simp
    · revert h3
      unfold tryUnlink
      split <;> (try split) <;> simp
    · simp at h4
  · simp
  · intro hmem
    exact tryUnlink_self_not_mem _ _ _ (tryUnlink_sub _ _ _ _ hmem)
  · exact tryUnlink_self_not_mem _ _ _
  · intro f hf h1 h2
    exact tryUnlink_keep _ _ _ _ (tryUnlink_keep _ _ _ _ hf h1) h2

theorem dropdb_connect_failure_still_purges_witness :
    c10Env.connectOk = false ∧
    migrationFile "tags" ∉ (dropdb c10Env "tags" true).2 :=
  ⟨rfl, (dropdb_connect_failure_still_purges c10Env "tags" rfl).2.2.1⟩

theorem charListLe_total : ∀ (as bs : List Char),
    charListLe as bs = true ∨ charListLe bs as = true := by
  intro as
  induction as with
  | nil => intro bs; left; rfl
  | cons a as ih =>
    intro bs
    cases bs with
    | nil => right; rfl
    | cons b bs =>
      by_cases h1 : a.toNat < b.toNat
      · left; simp [charListLe, h1]
      · by_cases h2 : b.toNat < a.toNat
        · right; simp [charListLe, h2]
        · rcases ih bs with h | h
          · left; simp [charListLe, h1, h2, h]
          · right; simp [charListLe, h1, h2, h]

theorem charListLe_trans : ∀ (as bs cs : List Char),
    charListLe as bs = true → charListLe bs cs = true → charListLe as cs = true := by
  intro as
  induction as with
  | nil => intro bs cs _ _; rfl
  | cons a as ih =>
    intro bs cs h1 h2
    cases bs with
    | nil => simp [charListLe] at h1
    | cons b bs =>
      cases cs with
      | nil => simp [charListLe] at h2
      | cons c cs =>
        simp only [charListLe] at h1 h2 ⊢
        by_cases hab : a.toNat < b.toNat
        · by_cases hbc : b.toNat < c.toNat
          · simp [Nat.lt_trans hab hbc]
          · by_cases hcb : c.toNat < b.toNat
            · simp [hbc, hcb] at h2
            · have hac : a.toNat < c.toNat := by omega
              simp [hac]
        · by_cases hba : b.toNat < a.toNat
          · simp [hab, hba] at h1
          · by_cases hbc : b.toNat < c.toNat
            · have hac : a.toNat < c.toNat := by omega
              simp [hac]
            · by_cases hcb : c.toNat < b.toNat
              · simp [hbc, hcb] at h2
              · rw [if_neg hab, if_neg hba] at h1
                rw [if_neg hbc, if_neg hcb] at h2
                have hac : ¬ a.toNat < c.toNat := by omega
                have hca : ¬ c.toNat < a.toNat := by omega
                rw [if_neg hac, if_neg hca]
                exact ih bs cs h1 h2

theorem strLe_total (a b : String) : strLe a b = true ∨ strLe b a = true :=
  charListLe_total a.toList b.toList

theorem strLe_trans (a b c : String) (h1 : strLe a b = true) (h2 : strLe b c = true) :
    strLe a c = true :=
  charListLe_trans a.toList b.toList c.toList h1 h2

theorem insortStr_perm (x : String) : ∀ l : List String, (insortStr x l).Perm (x :: l) := by
  intro l
  induction l with
  | nil => exact List.Perm.refl _
  | cons y ys ih =>
    by_cases h : strLe x y = true
    · rw [show insortStr x (y :: ys) = x :: y :: ys from by simp [insortStr, h]]
    · have h' : strLe x y = false := by revert h; cases strLe x y <;> simp
      rw [show insortStr x (y :: ys) = y :: insortStr x ys from by simp [insortStr, h']]
      exact (List.Perm.cons y ih).trans (List.Perm.swap x y ys)

theorem pyDir_perm : ∀ l : List String, (pyDir l).Perm l := by
  intro l
  induction l with
  | nil => exact List.Perm.refl _
  | cons a l ih =>
    have he : pyDir (a :: l) = insortStr a (pyDir l) := rfl
    rw [he]
    exact (insortStr_perm a (pyDir l)).trans (List.Perm.cons a ih)

theorem insortStr_sorted (x : String) :
    ∀ l : List String, l.Sorted SLe → (insortStr x l).Sorted SLe := by
  intro l
  induction l with
  | nil => intro _; simp [insortStr, List.sorted_singleton]
  | cons y ys ih =>
    intro h
    rw [List.sorted_cons] at h
    by_cases hxy : strLe x y = true
    · rw [show insortStr x (y :: ys) = x :: y :: ys from by simp [insortStr, hxy]]
      rw [List.sorted_cons]
      refine ⟨?_, ?_⟩
      · intro b hb
        rcases List.mem_cons.mp hb with rfl | hb2
        · exact hxy
        · exact strLe_trans x y b hxy (h.1 b hb2)
      · rw [List.sorted_cons]; exact h
    · have hxy' : strLe x y = false := by revert hxy; cases strLe x y <;> simp
      rw [show insortStr x (y :: ys) = y :: insortStr x ys from by simp [insortStr, hxy']]
      rw [List.sorted_cons]
      refine ⟨?_, ih h.2⟩
      intro b hb
      have hb2 : b ∈ x :: ys := (insortStr_perm x ys).mem_iff.mp hb
      rcases List.mem_cons.mp hb2 with rfl | hb3
      · rcases strLe_total b y with h' | h'
        · rw [h'] at hxy'; exact absurd hxy' (by simp)
        · exact h'
      · exact h.1 b hb3

theorem pyDir_sorted : ∀ l : List String, (pyDir l).Sorted SLe := by
  intro l
  induction l with
  | nil => exact List.sorted_nil
  | cons a l ih =>
    have he : pyDir (a :: l) = insortStr a (pyDir l) := rfl
    rw [he]
    exact insortStr_sorted a (pyDir l) ih

/-- C7 counterexample: with the registry declared in the order
`[migrate_tags, migrate_profiles]`, requesting `all` resolves to the units in
alphabetical order of attribute name, which differs from the declaration
order. -/
theorem resolve_all_not_declaration_order :
    resolve c7Attrs ["all"] =
      .ok [("migrate_profiles", "profiles"), ("migrate_tags", "tags")] ∧
    [("migrate_profiles", "profiles"), ("migrate_tags", "tags")] ≠
      c7Attrs.map (fun a => (a, stripMigrate a)) :=
  ⟨rfl, by decide⟩

/-- C7 (amended): when the requested names include the sentinel `all`, the
resolved sequence consists of every registered unit (every `migrate_`-prefixed
attribute appears, paired with its stripped name) in a fixed deterministic
order: sorted alphabetically by attribute name (the order of Python's `dir()`),
which need not be the declaration order. -/
theorem resolve_all_spec (attrs cogs : List String)
    (hall : cogs.any (· == "all") = true) :
    ∃ l, resolve attrs cogs = .ok l ∧
      (l.map Prod.fst).Perm (attrs.filter (fun a => startsWithMigrate a)) ∧
      (l.map Prod.fst).Sorted SLe ∧
      (∀ a ∈ attrs, startsWithMigrate a = true → (a, stripMigrate a) ∈ l) := by
  have hmap : (((pyDir attrs).filter (fun a => startsWithMigrate a)).map
      (fun a => (a, stripMigrate a))).map Prod.fst =
      (pyDir attrs).filter (fun a => startsWithMigrate a) := by
    have hcomp : (Prod.fst ∘ fun a : String => (a, stripMigrate a)) = id := rfl
    rw [List.map_map, hcomp, List.map_id]
  refine ⟨((pyDir attrs).filter (fun a => startsWithMigrate a)).map
      (fun a => (a, stripMigrate a)), by simp [resolve, hall], ?_, ?_, ?_⟩
  · rw [hmap]
    exact (pyDir_perm attrs).filter _
  · rw [hmap]
    exact (pyDir_sorted attrs).filter _
  · intro a ha hm
    have h1 : a ∈ pyDir attrs := (pyDir_perm attrs).mem_iff.mpr ha
    have h2 : a ∈ (pyDir attrs).filter (fun a => startsWithMigrate a) :=
      List.mem_filter.mpr ⟨h1, hm⟩
    exact List.mem_map.mpr ⟨a, h2, rfl⟩

theorem resolve_all_spec_witness :
    ((["all"] : List String).any (· == "all") = true) ∧
    (∃ l, resolve c7Attrs ["all"] = .ok l ∧
      (l.map Prod.fst).Perm (c7Attrs.filter (fun a => startsWithMigrate a)) ∧
      (l.map Prod.fst).Sorted SLe ∧
      (∀ a ∈ c7Attrs, startsWithMigrate a = true → (a, stripMigrate a) ∈ l)) :=
  ⟨by decide, resolve_all_spec c7Attrs ["all"] (by decide)⟩

theorem lastDotIdx_none : ∀ (l : List Char), (∀ ch ∈ l, ch ≠ '.') → lastDotIdx l = none := by
  intro l
  induction l with
  | nil => intro _; rfl
  | cons c cs ih =>
    intro h
    have hcs := ih (fun ch hch => h ch (List.mem_cons_of_mem _ hch))
    have hc : c ≠ '.' := h c (List.mem_cons_self _ _)
    simp [lastDotIdx, hcs, hc]

theorem pyWithSuffix_no_dot (name suffix : String)
    (h : ∀ ch ∈ name.toList, ch ≠ '.') :
    pyWithSuffix name suffix = name ++ suffix := by
  simp [pyWithSuffix, lastDotIdx_none name.data h]

/-- C8 counterexample: for the table name `a.b`, `with_suffix('.json')`
replaces the existing suffix `.b`, so the computed history file is
`migrations/a.json` rather than the claimed `migrations/a.b.json` (and likewise
for the current-pointer file). -/
theorem migration_path_strips_dotted_name :
    migrationFile "a.b" ≠ "migrations/" ++ "a.b" ++ ".json" ∧
    migrationFile "a.b" = "migrations/a.json" ∧
    currentFile "a.b" = "migrations/current-a.json" := by
  refine ⟨by decide, by decide, by decide⟩

/-- C8 (amended): the migration store's file locations are derived
deterministically from the table name alone; for every table name containing no
dot they are exactly `migrations/<name>.json` and
`migrations/current-<name>.json` (for a name with an interior dot,
`with_suffix` first replaces the name's existing suffix with `.json`), so two
invocations with the same table name always address the same two files. -/
theorem migration_paths_deterministic (name : String)
    (hdot : ∀ ch ∈ name.toList, ch ≠ '.') :
    migrationFile name = "migrations/" ++ name ++ ".json" ∧
    currentFile name = "migrations/current-" ++ name ++ ".json" := by
  rw [migrationFile, currentFile, pyWithSuffix_no_dot name ".json" hdot]
  constructor <;> rw [String.append_assoc]

theorem migration_paths_deterministic_witness :
    (∀ ch ∈ ("tags" : String).toList, ch ≠ '.') ∧
    migrationFile "tags" = "migrations/" ++ "tags" ++ ".json" :=
  ⟨by decide, (migration_paths_deterministic "tags" (by decide)).1⟩

end Launcher
